import Mathlib

/-!
Verification of the firmware-image streaming loader of the system_test_hw_0
BSP (`bsp_dut_boot` and `bsp_dut_update_haptic_config` in
system_test_hw_0_bsp.c).

The loader is embedded shallowly.  The external collaborators that the BSP
calls — the container parser (`fw_img_read_header` / `fw_img_process`), the
allocator (`bsp_malloc`), the device-write (`cs40l25_write_block`) and the
device-commit (`cs40l25_boot`) — are out of scope of the sources (the spec
treats them as opaque collaborators), so they are modelled as oracle
functions collected in a `Collab` structure: every theorem quantifies over
them, so it holds for every behaviour of the collaborators.

Pointers are modelled as (`Option Nat`): `none` is NULL, `some p` an
abstract address.  The image cursor `fw_img` is modelled as a byte offset
from the start of the selected image, and `fw_img_end` as the image size,
so the C pointer comparison `fw_img < fw_img_end` becomes `<` on `Nat`.
The pointer difference `fw_img_end - fw_img` is modelled with truncated
`Nat` subtraction; this agrees with the C expression whenever the cursor
has not run past the end of the image, which the theorems that depend on it
take as an explicit hypothesis (`fw_img + write_size ≤ fw_img_end`).

Every call the loader makes to a collaborator is recorded in a trace of
`Event`s, so ordering claims (header before allocation, allocation before
writes, frees only at the start, a single final commit) become statements
about every decomposition of the trace.
-/

/-- BSP_STATUS_OK from bsp_driver_if.h. -/
def BSP_STATUS_OK : Nat := 0

/-- BSP_STATUS_FAIL from bsp_driver_if.h. -/
def BSP_STATUS_FAIL : Nat := 1

/-- Modelled from the spec: the device driver status codes (cs40l25.h is not
among the sources).  They follow the same OK/FAIL convention as the BSP
status codes; only `OK = 0` (the C code tests `ret != CS40L25_STATUS_OK`
and `ret == CS40L25_STATUS_FAIL`) matters to the claims. -/
def CS40L25_STATUS_OK : Nat := 0

/-- Modelled from the spec: device driver failure status, see
`CS40L25_STATUS_OK`. -/
def CS40L25_STATUS_FAIL : Nat := 1

/-- Result statuses of `fw_img_process` that `bsp_dut_boot` distinguishes
(fw_img.h is not among the sources; the BSP compares the return value
against the three named constants and treats every other value — in
particular FW_IMG_STATUS_OK, i.e. the container is fully decoded — alike,
which `done` stands for). -/
inductive FwImgStatus where
  | dataReady
  | fail
  | nodata
  | done
deriving DecidableEq, Repr

/-- The decoded preheader (`boot_state.fw_info.preheader`). -/
structure FwImgPreheader where
  img_format_rev : Nat := 0
deriving DecidableEq, Repr

/-- The decoded header fields that `bsp_dut_boot` reads
(`boot_state.fw_info.header`). -/
structure FwImgHeader where
  sym_table_size : Nat := 0
  alg_id_list_size : Nat := 0
  max_block_size : Nat := 0
deriving DecidableEq, Repr

/-- The current decoded block descriptor (`boot_state.block`). -/
structure FwImgBlock where
  block_addr : Nat := 0
  block_size : Nat := 0
deriving DecidableEq, Repr

/-- The firmware descriptor handed to the device at commit time
(`boot_state.fw_info`).  The symbol table and algorithm-ID list are owned
allocations, modelled by their abstract addresses. -/
structure FwInfo where
  preheader : FwImgPreheader := {}
  header : FwImgHeader := {}
  sym_table : Option Nat := none
  alg_id_list : Option Nat := none
deriving DecidableEq, Repr

/-- The static `fw_img_boot_state_t boot_state` of the BSP, restricted to
the fields the BSP itself reads or writes. -/
structure BootState where
  fw_info : FwInfo := {}
  block : FwImgBlock := {}
  block_data : Option Nat := none
  block_data_size : Nat := 0
  fw_img_blocks : Nat := 0
  fw_img_blocks_size : Nat := 0
deriving DecidableEq, Repr

/-- Which of the three buffers an allocation event concerns. -/
inductive AllocKind where
  | symTable
  | algIdList
  | blockBuf
deriving DecidableEq, Repr

/-- One observable interaction of `bsp_dut_boot` with a collaborator:
a `cs40l25_boot` call (with NULL or with the fw_info), a `bsp_free`, the
`memset` clearing the boot state, the `fw_img_read_header` call, a
`bsp_malloc`, a `fw_img_process` call (recording the cursor and the chunk
the parser is given, and the status it returned), or a
`cs40l25_write_block` call (recording the forwarded address, buffer and
length, and the returned status). -/
inductive Event where
  | bootDevCall (fw : Option FwInfo) (status : Nat)
  | free (ptr : Nat)
  | reset
  | readHeaderCall (ret : Nat)
  | alloc (kind : AllocKind) (size : Nat) (result : Option Nat)
  | procCall (fwImg : Nat) (blocks : Nat) (blocksSize : Nat) (st : FwImgStatus)
  | writeCall (addr : Nat) (dataPtr : Option Nat) (size : Nat) (status : Nat)
deriving DecidableEq, Repr

/-- The collaborators of `bsp_dut_boot`, as oracles.  `process` and
`writeBlock` additionally receive the index of the call (how many calls of
that kind happened before), so that an oracle can represent any stateful
collaborator.  `sizeof_sym_entry` is the platform value of
`sizeof(fw_img_v1_sym_table_t)` (fw_img.h is not among the sources); the
uint32_t elements of the algorithm-ID list have size 4 by definition of
uint32_t. -/
structure Collab where
  bootDev : Option FwInfo → Nat
  readHeader : BootState → Nat × BootState
  mallocSym : Nat → Option Nat
  mallocAlg : Nat → Option Nat
  mallocBlock : Nat → Option Nat
  process : Nat → BootState → FwImgStatus × BootState
  writeBlock : Nat → Nat → Option Nat → Nat → Nat
  sizeof_sym_entry : Nat

/-- Outcome of the `while (fw_img < fw_img_end)` loop: an early `return`
with a BSP status, normal exit of the loop, or exhaustion of the fuel
bounding the modelled execution. -/
inductive LoopOut where
  | earlyRet (status : Nat)
  | finished
  | outOfFuel
deriving DecidableEq, Repr

/-- The `while (fw_img < fw_img_end)` loop of `bsp_dut_boot`
(system_test_hw_0_bsp.c), with `e` the image size.  Arguments after the
fuel: the cursor `fw_img`, the current `write_size`, the `fw_img_process`
and `cs40l25_write_block` call counters, and the boot state.  Returns the
loop outcome, the boot state at exit, and the trace of collaborator calls
made by the loop. -/
def bootLoop (c : Collab) (e : Nat) :
    Nat → Nat → Nat → Nat → Nat → BootState → LoopOut × BootState × List Event
  | 0, _, _, _, _, bs => (.outOfFuel, bs, [])
  | fuel+1, fw, ws, pIdx, wIdx, bs =>
    if fw < e then
      match c.process pIdx bs with
      | (FwImgStatus.dataReady, bs2) =>
        if c.writeBlock wIdx bs2.block.block_addr bs2.block_data bs2.block.block_size
            = CS40L25_STATUS_FAIL then
          (.earlyRet BSP_STATUS_FAIL, bs2,
           [Event.procCall fw bs.fw_img_blocks bs.fw_img_blocks_size FwImgStatus.dataReady,
            Event.writeCall bs2.block.block_addr bs2.block_data bs2.block.block_size
              (c.writeBlock wIdx bs2.block.block_addr bs2.block_data bs2.block.block_size)])
        else
          let r := bootLoop c e fuel fw ws (pIdx+1) (wIdx+1) bs2
          (r.1, r.2.1,
           Event.procCall fw bs.fw_img_blocks bs.fw_img_blocks_size FwImgStatus.dataReady ::
           Event.writeCall bs2.block.block_addr bs2.block_data bs2.block.block_size
             (c.writeBlock wIdx bs2.block.block_addr bs2.block_data bs2.block.block_size) ::
           r.2.2)
      | (FwImgStatus.fail, bs2) =>
        (.earlyRet BSP_STATUS_FAIL, bs2,
         [Event.procCall fw bs.fw_img_blocks bs.fw_img_blocks_size FwImgStatus.fail])
      | (FwImgStatus.nodata, bs2) =>
        let fw2 := fw + ws
        let ws2 := if e - fw2 < ws then e - fw2 else ws
        let bs3 := { bs2 with fw_img_blocks := fw2, fw_img_blocks_size := ws2 }
        let r := bootLoop c e fuel fw2 ws2 (pIdx+1) wIdx bs3
        (r.1, r.2.1,
         Event.procCall fw bs.fw_img_blocks bs.fw_img_blocks_size FwImgStatus.nodata :: r.2.2)
      | (FwImgStatus.done, bs2) =>
        let r := bootLoop c e fuel (fw + ws) ws (pIdx+1) wIdx bs2
        (r.1, r.2.1,
         Event.procCall fw bs.fw_img_blocks bs.fw_img_blocks_size FwImgStatus.done :: r.2.2)
    else
      (.finished, bs, [])

/-- The boot state right after `memset(&boot_state, 0, ...)` and the
initialisation of the first chunk: `fw_img_blocks` points at the start of
the image (offset 0) and `fw_img_blocks_size` is the 1024-byte emulated
window. -/
def initBootState : BootState :=
  { fw_img_blocks := 0, fw_img_blocks_size := 1024 }

/-- The part of `bsp_dut_boot` that runs after the boot state has been
cleared: read the header, make the three allocations (the block buffer
sized 4140 for format revision 1 and `max_block_size` otherwise), run the
streaming loop, and on normal loop exit commit via
`cs40l25_boot(&driver, &boot_state.fw_info)` whose status is returned. -/
def bootAfterReset (c : Collab) (fuel : Nat) (e : Nat) :
    Option Nat × List Event × BootState :=
  match c.readHeader initBootState with
  | (hret, bs3) =>
    if hret = 0 then
      let symBytes := bs3.fw_info.header.sym_table_size * c.sizeof_sym_entry
      match c.mallocSym symBytes with
      | none =>
        (some BSP_STATUS_FAIL,
         [Event.readHeaderCall hret, Event.alloc .symTable symBytes none],
         { bs3 with fw_info := { bs3.fw_info with sym_table := none } })
      | some pS =>
        let bs4 := { bs3 with fw_info := { bs3.fw_info with sym_table := some pS } }
        let algBytes := bs4.fw_info.header.alg_id_list_size * 4
        match c.mallocAlg algBytes with
        | none =>
          (some BSP_STATUS_FAIL,
           [Event.readHeaderCall hret, Event.alloc .symTable symBytes (some pS),
            Event.alloc .algIdList algBytes none],
           { bs4 with fw_info := { bs4.fw_info with alg_id_list := none } })
        | some pA =>
          let bs5 := { bs4 with fw_info := { bs4.fw_info with alg_id_list := some pA } }
          let bds := if bs5.fw_info.preheader.img_format_rev = 1 then 4140
                     else bs5.fw_info.header.max_block_size
          let bs6 := { bs5 with block_data_size := bds }
          match c.mallocBlock bds with
          | none =>
            (some BSP_STATUS_FAIL,
             [Event.readHeaderCall hret, Event.alloc .symTable symBytes (some pS),
              Event.alloc .algIdList algBytes (some pA), Event.alloc .blockBuf bds none],
             { bs6 with block_data := none })
          | some pB =>
            let bs7 := { bs6 with block_data := some pB }
            let hdr4 := [Event.readHeaderCall hret, Event.alloc .symTable symBytes (some pS),
                         Event.alloc .algIdList algBytes (some pA),
                         Event.alloc .blockBuf bds (some pB)]
            match bootLoop c e fuel 0 1024 0 0 bs7 with
            | (LoopOut.earlyRet s, bsL, ltr) => (some s, hdr4 ++ ltr, bsL)
            | (LoopOut.outOfFuel, bsL, ltr) => (none, hdr4 ++ ltr, bsL)
            | (LoopOut.finished, bsL, ltr) =>
              (some (c.bootDev (some bsL.fw_info)),
               (hdr4 ++ ltr) ++
                 [Event.bootDevCall (some bsL.fw_info) (c.bootDev (some bsL.fw_info))],
               bsL)
    else
      (some BSP_STATUS_FAIL, [Event.readHeaderCall hret], bs3)

/-- The `bsp_free` calls at the start of `bsp_dut_boot`: each of the three
pointers of the previous attempt is freed exactly when it is non-NULL, in
the order symbol table, algorithm-ID list, block buffer. -/
def freeEvents (bs : BootState) : List Event :=
  (match bs.fw_info.sym_table with
   | some p => [Event.free p]
   | none => []) ++
  (match bs.fw_info.alg_id_list with
   | some p => [Event.free p]
   | none => []) ++
  (match bs.block_data with
   | some p => [Event.free p]
   | none => [])

/-- `bsp_dut_boot` of system_test_hw_0_bsp.c: `e` is the size of the
selected image (`FW_IMG_SIZE(cs40l25_fw_img)` or of the calibration
image), `bs0` the boot state left over from the previous invocation, and
`fuel` bounds the number of loop iterations modelled.  Returns the status
`bsp_dut_boot` returns (`none` when the fuel ran out), the trace of
collaborator calls, and the final boot state. -/
def bsp_dut_boot_run (c : Collab) (fuel : Nat) (e : Nat) (bs0 : BootState) :
    Option Nat × List Event × BootState :=
  let r0 := c.bootDev none
  if r0 = CS40L25_STATUS_OK then
    let ar := bootAfterReset c fuel e
    (ar.1, Event.bootDevCall none r0 :: (freeEvents bs0 ++ Event.reset :: ar.2.1), ar.2.2)
  else
    (some r0, [Event.bootDevCall none r0], bs0)

/-- The events on which `bsp_dut_boot` takes one of its `return
BSP_STATUS_FAIL` error exits: a failed header read, a failed allocation, a
block write returning CS40L25_STATUS_FAIL, or the parser returning
FW_IMG_STATUS_FAIL. -/
def isFailureEvent : Event → Bool
  | .readHeaderCall r => if r = 0 then false else true
  | .alloc _ _ none => true
  | .alloc _ _ (some _) => false
  | .writeCall _ _ _ s => if s = CS40L25_STATUS_FAIL then true else false
  | .procCall _ _ _ st => if st = FwImgStatus.fail then true else false
  | _ => false

/-- Events that the streaming loop can emit. -/
def isLoopEvent : Event → Bool
  | .procCall _ _ _ _ => true
  | .writeCall _ _ _ _ => true
  | _ => false

/-- Abbreviation for the boot state after the three allocations succeeded
(header-read output `bs3`, allocation results `pS`, `pA`, `pB`). -/
def allocatedState (bs3 : BootState) (pS pA pB : Nat) : BootState :=
  { bs3 with
    fw_info := { bs3.fw_info with sym_table := some pS, alg_id_list := some pA },
    block_data_size := if bs3.fw_info.preheader.img_format_rev = 1 then 4140
                       else bs3.fw_info.header.max_block_size,
    block_data := some pB }

/-- Abbreviation for the events of a successful header-and-allocation
phase. -/
def hdrEvents (c : Collab) (bs3 : BootState) (pS pA pB : Nat) : List Event :=
  [Event.readHeaderCall 0,
   Event.alloc .symTable (bs3.fw_info.header.sym_table_size * c.sizeof_sym_entry) (some pS),
   Event.alloc .algIdList (bs3.fw_info.header.alg_id_list_size * 4) (some pA),
   Event.alloc .blockBuf (if bs3.fw_info.preheader.img_format_rev = 1 then 4140
                          else bs3.fw_info.header.max_block_size) (some pB)]

/-- The allocation size `bsp_dut_boot` requests for each buffer, in terms
of the header-read output state. -/
def expectedAllocSize (c : Collab) (bs3 : BootState) : AllocKind → Nat
  | AllocKind.symTable => bs3.fw_info.header.sym_table_size * c.sizeof_sym_entry
  | AllocKind.algIdList => bs3.fw_info.header.alg_id_list_size * 4
  | AllocKind.blockBuf =>
    if bs3.fw_info.preheader.img_format_rev = 1 then 4140
    else bs3.fw_info.header.max_block_size

/-- One entry of `gpio_trigger_config` (cs40l25_haptic_config_t). -/
structure Cs40l25GpioTriggerConfig where
  enable : Bool
  button_press_index : Nat
  button_release_index : Nat
deriving DecidableEq, Repr

/-- `cs40l25_haptic_config_t` as used by the BSP. -/
structure Cs40l25HapticConfig where
  cp_gain_control : Nat
  gpio_enable : Bool
  gpio_gain_control : Nat
  gpio_trigger_config : List Cs40l25GpioTriggerConfig
deriving DecidableEq, Repr

/-- The static two-entry configuration array `cs40l25_haptic_configs` of
system_test_hw_0_bsp.c. -/
def cs40l25_haptic_configs : List Cs40l25HapticConfig :=
  [ { cp_gain_control := 0, gpio_enable := false, gpio_gain_control := 0,
      gpio_trigger_config :=
        [ { enable := false, button_press_index := 3, button_release_index := 4 },
          { enable := false, button_press_index := 0, button_release_index := 0 },
          { enable := false, button_press_index := 0, button_release_index := 0 },
          { enable := false, button_press_index := 0, button_release_index := 0 } ] },
    { cp_gain_control := 0, gpio_enable := true, gpio_gain_control := 0,
      gpio_trigger_config :=
        [ { enable := true, button_press_index := 3, button_release_index := 4 },
          { enable := true, button_press_index := 0, button_release_index := 0 },
          { enable := true, button_press_index := 0, button_release_index := 0 },
          { enable := true, button_press_index := 0, button_release_index := 0 } ] } ]

/-- `bsp_dut_update_haptic_config` of system_test_hw_0_bsp.c.  The driver
call `cs40l25_update_haptic_config` is the oracle `update`.  The guard is
the one in the C source: `config_index > sizeof(...)/sizeof(...)`, i.e.
`config_index > 2`.  When the C code goes on to read
`cs40l25_haptic_configs[config_index]`, the read is modelled with a safe
lookup: `none` means the C performed an out-of-bounds array read
(undefined behaviour). -/
def bsp_dut_update_haptic_config (update : Cs40l25HapticConfig → Nat)
    (config_index : Nat) : Option Nat :=
  if config_index > cs40l25_haptic_configs.length then some BSP_STATUS_FAIL
  else
    match cs40l25_haptic_configs.get? config_index with
    | none => none
    | some cfg =>
      some (if update cfg = CS40L25_STATUS_OK then BSP_STATUS_OK else BSP_STATUS_FAIL)

def cRun : Collab :=
  { bootDev := fun _ => CS40L25_STATUS_OK,
    readHeader := fun bs =>
      (0, { bs with fw_info := { bs.fw_info with
              preheader := { img_format_rev := 2 },
              header := { sym_table_size := 2, alg_id_list_size := 1,
                          max_block_size := 16 } } }),
    mallocSym := fun _ => some 11,
    mallocAlg := fun _ => some 22,
    mallocBlock := fun _ => some 33,
    process := fun i bs =>
      if i = 0 then
        (FwImgStatus.dataReady, { bs with block := { block_addr := 4096, block_size := 8 } })
      else (FwImgStatus.done, bs),
    writeBlock := fun _ _ _ _ => CS40L25_STATUS_OK,
    sizeof_sym_entry := 8 }

def cTrunc : Collab :=
  { bootDev := fun _ => CS40L25_STATUS_OK,
    readHeader := fun bs =>
      (0, { bs with fw_info := { bs.fw_info with
              preheader := { img_format_rev := 2 },
              header := { sym_table_size := 1, alg_id_list_size := 1,
                          max_block_size := 8 } } }),
    mallocSym := fun _ => some 100,
    mallocAlg := fun _ => some 200,
    mallocBlock := fun _ => some 300,
    process := fun _ bs => (FwImgStatus.nodata, bs),
    writeBlock := fun _ _ _ _ => CS40L25_STATUS_OK,
    sizeof_sym_entry := 8 }

def cReject : Collab :=
  { bootDev := fun _ => 2,
    readHeader := fun bs => (0, bs),
    mallocSym := fun _ => some 1,
    mallocAlg := fun _ => some 2,
    mallocBlock := fun _ => some 3,
    process := fun _ bs => (FwImgStatus.done, bs),
    writeBlock := fun _ _ _ _ => CS40L25_STATUS_OK,
    sizeof_sym_entry := 8 }

def cFailHdr : Collab :=
  { bootDev := fun _ => CS40L25_STATUS_OK,
    readHeader := fun bs => (1, bs),
    mallocSym := fun _ => some 1,
    mallocAlg := fun _ => some 2,
    mallocBlock := fun _ => some 3,
    process := fun _ bs => (FwImgStatus.done, bs),
    writeBlock := fun _ _ _ _ => CS40L25_STATUS_OK,
    sizeof_sym_entry := 8 }

def cRunFwInfo : FwInfo :=
  { preheader := { img_format_rev := 2 },
    header := { sym_table_size := 2, alg_id_list_size := 1, max_block_size := 16 },
    sym_table := some 11,
    alg_id_list := some 22 }

def cRunTrace7 : List Event :=
  [Event.bootDevCall none 0, Event.reset, Event.readHeaderCall 0,
   Event.alloc .symTable 16 (some 11), Event.alloc .algIdList 4 (some 22),
   Event.alloc .blockBuf 16 (some 33),
   Event.procCall 0 0 1024 FwImgStatus.dataReady]

def bs0W : BootState := { fw_info := { sym_table := some 7 }, block_data := some 9 }

def cTruncFwInfo : FwInfo :=
  { preheader := { img_format_rev := 2 },
    header := { sym_table_size := 1, alg_id_list_size := 1, max_block_size := 8 },
    sym_table := some 100,
    alg_id_list := some 200 }

lemma split_skip {α : Type} (a : α) :
    ∀ (pre rest l r : List α), pre ++ rest = l ++ a :: r → a ∉ pre →
      ∃ l2, l = pre ++ l2 ∧ rest = l2 ++ a :: r := by
  intro pre
  induction pre with
  | nil =>
    intro rest l r h _
    exact ⟨l, (List.nil_append l).symm, by simpa using h⟩
  | cons p pre ih =>
    intro rest l r h hna
    cases l with
    | nil =>
      simp only [List.cons_append, List.nil_append] at h
      have : p = a := (List.cons.injEq _ _ _ _ ▸ h).1
      exact absurd (this ▸ List.mem_cons_self p pre) hna
    | cons x l =>
      simp only [List.cons_append] at h
      have hpx : p = x := (List.cons.injEq _ _ _ _ ▸ h).1
      have h2 : pre ++ rest = l ++ a :: r := (List.cons.injEq _ _ _ _ ▸ h).2
      have hna2 : a ∉ pre := fun hm => hna (List.mem_cons_of_mem _ hm)
      obtain ⟨l2, h3, h4⟩ := ih rest l r h2 hna2
      exact ⟨l2, by simp [hpx, h3], h4⟩

lemma freeEvents_shape (bs : BootState) (ev : Event) (h : ev ∈ freeEvents bs) :
    ∃ p, ev = Event.free p := by
  unfold freeEvents at h
  rcases h1 : bs.fw_info.sym_table with _ | p1 <;>
    rcases h2 : bs.fw_info.alg_id_list with _ | p2 <;>
    rcases h3 : bs.block_data with _ | p3 <;>
    rw [h1, h2, h3] at h <;> simp at h <;> aesop

lemma loop_events (c : Collab) (e : Nat) :
    ∀ fuel fw ws pIdx wIdx bs ev,
      ev ∈ (bootLoop c e fuel fw ws pIdx wIdx bs).2.2 → isLoopEvent ev = true := by
  intro fuel
  induction fuel with
  | zero => intro fw ws pIdx wIdx bs ev h; simp [bootLoop] at h
  | succ n ih =>
    intro fw ws pIdx wIdx bs ev h
    by_cases hlt : fw < e
    · rcases hp : c.process pIdx bs with ⟨st, bs2⟩
      cases st
      · by_cases hw : c.writeBlock wIdx bs2.block.block_addr bs2.block_data bs2.block.block_size
            = CS40L25_STATUS_FAIL
        · simp [bootLoop, hlt, hp, hw] at h
          rcases h with h | h <;> simp [h, isLoopEvent]
        · simp [bootLoop, hlt, hp, hw] at h
          rcases h with h | h | h
          · simp [h, isLoopEvent]
          · simp [h, isLoopEvent]
          · exact ih _ _ _ _ _ _ h
      · simp [bootLoop, hlt, hp] at h
        simp [h, isLoopEvent]
      · simp [bootLoop, hlt, hp] at h
        rcases h with h | h
        · simp [h, isLoopEvent]
        · exact ih _ _ _ _ _ _ h
      · simp [bootLoop, hlt, hp] at h
        rcases h with h | h
        · simp [h, isLoopEvent]
        · exact ih _ _ _ _ _ _ h
    · simp [bootLoop, hlt] at h

lemma loop_earlyRet_status (c : Collab) (e : Nat) :
    ∀ fuel fw ws pIdx wIdx bs s,
      (bootLoop c e fuel fw ws pIdx wIdx bs).1 = LoopOut.earlyRet s →
      s = BSP_STATUS_FAIL := by
  intro fuel
  induction fuel with
  | zero => intro fw ws pIdx wIdx bs s h; simp [bootLoop] at h
  | succ n ih =>
    intro fw ws pIdx wIdx bs s h
    by_cases hlt : fw < e
    · rcases hp : c.process pIdx bs with ⟨st, bs2⟩
      cases st
      · by_cases hw : c.writeBlock wIdx bs2.block.block_addr bs2.block_data bs2.block.block_size
            = CS40L25_STATUS_FAIL
        · simp [bootLoop, hlt, hp, hw] at h; omega
        · simp [bootLoop, hlt, hp, hw] at h
          exact ih _ _ _ _ _ _ h
      · simp [bootLoop, hlt, hp] at h; omega
      · simp [bootLoop, hlt, hp] at h
        exact ih _ _ _ _ _ _ h
      · simp [bootLoop, hlt, hp] at h
        exact ih _ _ _ _ _ _ h
    · simp [bootLoop, hlt] at h

lemma loop_earlyRet_has_failure (c : Collab) (e : Nat) :
    ∀ fuel fw ws pIdx wIdx bs s,
      (bootLoop c e fuel fw ws pIdx wIdx bs).1 = LoopOut.earlyRet s →
      ∃ ev ∈ (bootLoop c e fuel fw ws pIdx wIdx bs).2.2, isFailureEvent ev = true := by
  intro fuel
  induction fuel with
  | zero => intro fw ws pIdx wIdx bs s h; simp [bootLoop] at h
  | succ n ih =>
    intro fw ws pIdx wIdx bs s h
    by_cases hlt : fw < e
    · rcases hp : c.process pIdx bs with ⟨st, bs2⟩
      cases st
      · by_cases hw : c.writeBlock wIdx bs2.block.block_addr bs2.block_data bs2.block.block_size
            = CS40L25_STATUS_FAIL
        · refine ⟨Event.writeCall bs2.block.block_addr bs2.block_data bs2.block.block_size
            (c.writeBlock wIdx bs2.block.block_addr bs2.block_data bs2.block.block_size), ?_, ?_⟩
          · simp [bootLoop, hlt, hp, hw]
          · simp [isFailureEvent, hw]
        · simp only [bootLoop, hlt, if_true, hp] at h ⊢
          simp only [hw, if_false, ite_false] at h ⊢
          obtain ⟨ev, hmem, hf⟩ := ih _ _ _ _ _ _ h
          exact ⟨ev, by simp [hmem], hf⟩
      · refine ⟨Event.procCall fw bs.fw_img_blocks bs.fw_img_blocks_size FwImgStatus.fail, ?_, ?_⟩
        · simp [bootLoop, hlt, hp]
        · simp [isFailureEvent]
      · simp only [bootLoop, hlt, if_true, hp] at h ⊢
        obtain ⟨ev, hmem, hf⟩ := ih _ _ _ _ _ _ h
        exact ⟨ev, by simp [hmem], hf⟩
      · simp only [bootLoop, hlt, if_true, hp] at h ⊢
        obtain ⟨ev, hmem, hf⟩ := ih _ _ _ _ _ _ h
        exact ⟨ev, by simp [hmem], hf⟩
    · simp [bootLoop, hlt] at h

lemma loop_failure_split (c : Collab) (e : Nat) :
    ∀ fuel fw ws pIdx wIdx bs l ev rest,
      (bootLoop c e fuel fw ws pIdx wIdx bs).2.2 = l ++ ev :: rest →
      isFailureEvent ev = true →
      rest = [] ∧ (bootLoop c e fuel fw ws pIdx wIdx bs).1 = LoopOut.earlyRet BSP_STATUS_FAIL := by
  intro fuel
  induction fuel with
  | zero =>
    intro fw ws pIdx wIdx bs l ev rest h hf
    simp [bootLoop] at h
  | succ n ih =>
    intro fw ws pIdx wIdx bs l ev rest h hf
    by_cases hlt : fw < e
    · rcases hp : c.process pIdx bs with ⟨st, bs2⟩
      cases st
      · by_cases hw : c.writeBlock wIdx bs2.block.block_addr bs2.block_data bs2.block.block_size
            = CS40L25_STATUS_FAIL
        · simp only [bootLoop, hlt, if_true, hp, hw, ite_true] at h ⊢
          rcases l with _ | ⟨x, _ | ⟨y, l⟩⟩
          · simp at h
            rcases h with ⟨h1, _⟩
            rw [← h1] at hf
            simp [isFailureEvent] at hf
          · simp at h
            exact ⟨h.2.2, trivial⟩
          · simp at h
        · simp only [bootLoop, hlt, if_true, hp, hw, ite_false] at h ⊢
          rcases l with _ | ⟨x, _ | ⟨y, l⟩⟩
          · simp at h
            rcases h with ⟨h1, _⟩
            rw [← h1] at hf
            simp [isFailureEvent] at hf
          · simp at h
            rcases h with ⟨_, h2, _⟩
            rw [← h2] at hf
            simp [isFailureEvent, hw] at hf
          · simp at h
            exact ih _ _ _ _ _ l ev rest h.2.2 hf
      · simp only [bootLoop, hlt, if_true, hp] at h ⊢
        rcases l with _ | ⟨x, l⟩
        · simp at h
          exact ⟨h.2, trivial⟩
        · simp at h
      · simp only [bootLoop, hlt, if_true, hp] at h ⊢
        rcases l with _ | ⟨x, l⟩
        · simp at h
          rcases h with ⟨h1, _⟩
          rw [← h1] at hf
          simp [isFailureEvent] at hf
        · simp at h
          exact ih _ _ _ _ _ l ev rest h.2 hf
      · simp only [bootLoop, hlt, if_true, hp] at h ⊢
        rcases l with _ | ⟨x, l⟩
        · simp at h
          rcases h with ⟨h1, _⟩
          rw [← h1] at hf
          simp [isFailureEvent] at hf
        · simp at h
          exact ih _ _ _ _ _ l ev rest h.2 hf
    · simp [bootLoop, hlt] at h

lemma ar_hdr_fail (c : Collab) (fuel e r : Nat) (bs3 : BootState)
    (hH : c.readHeader initBootState = (r, bs3)) (hr : r ≠ 0) :
    bootAfterReset c fuel e = (some BSP_STATUS_FAIL, [Event.readHeaderCall r], bs3) := by
  simp [bootAfterReset, hH, hr]

lemma ar_sym_fail (c : Collab) (fuel e : Nat) (bs3 : BootState)
    (hH : c.readHeader initBootState = (0, bs3))
    (hS : c.mallocSym (bs3.fw_info.header.sym_table_size * c.sizeof_sym_entry) = none) :
    bootAfterReset c fuel e =
      (some BSP_STATUS_FAIL,
       [Event.readHeaderCall 0,
        Event.alloc .symTable (bs3.fw_info.header.sym_table_size * c.sizeof_sym_entry) none],
       { bs3 with fw_info := { bs3.fw_info with sym_table := none } }) := by
  simp [bootAfterReset, hH, hS]

lemma ar_alg_fail (c : Collab) (fuel e pS : Nat) (bs3 : BootState)
    (hH : c.readHeader initBootState = (0, bs3))
    (hS : c.mallocSym (bs3.fw_info.header.sym_table_size * c.sizeof_sym_entry) = some pS)
    (hA : c.mallocAlg (bs3.fw_info.header.alg_id_list_size * 4) = none) :
    bootAfterReset c fuel e =
      (some BSP_STATUS_FAIL,
       [Event.readHeaderCall 0,
        Event.alloc .symTable (bs3.fw_info.header.sym_table_size * c.sizeof_sym_entry) (some pS),
        Event.alloc .algIdList (bs3.fw_info.header.alg_id_list_size * 4) none],
       { bs3 with fw_info := { bs3.fw_info with sym_table := some pS, alg_id_list := none } }) := by
  simp [bootAfterReset, hH, hS, hA]

lemma ar_blk_fail (c : Collab) (fuel e pS pA : Nat) (bs3 : BootState)
    (hH : c.readHeader initBootState = (0, bs3))
    (hS : c.mallocSym (bs3.fw_info.header.sym_table_size * c.sizeof_sym_entry) = some pS)
    (hA : c.mallocAlg (bs3.fw_info.header.alg_id_list_size * 4) = some pA)
    (hB : c.mallocBlock (if bs3.fw_info.preheader.img_format_rev = 1 then 4140
                         else bs3.fw_info.header.max_block_size) = none) :
    bootAfterReset c fuel e =
      (some BSP_STATUS_FAIL,
       [Event.readHeaderCall 0,
        Event.alloc .symTable (bs3.fw_info.header.sym_table_size * c.sizeof_sym_entry) (some pS),
        Event.alloc .algIdList (bs3.fw_info.header.alg_id_list_size * 4) (some pA),
        Event.alloc .blockBuf (if bs3.fw_info.preheader.img_format_rev = 1 then 4140
                               else bs3.fw_info.header.max_block_size) none],
       { bs3 with
         fw_info := { bs3.fw_info with sym_table := some pS, alg_id_list := some pA },
         block_data_size := if bs3.fw_info.preheader.img_format_rev = 1 then 4140
                            else bs3.fw_info.header.max_block_size,
         block_data := none }) := by
  simp [bootAfterReset, hH, hS, hA, hB]

lemma ar_loop_reduce (c : Collab) (fuel e pS pA pB : Nat) (bs3 : BootState)
    (hH : c.readHeader initBootState = (0, bs3))
    (hS : c.mallocSym (bs3.fw_info.header.sym_table_size * c.sizeof_sym_entry) = some pS)
    (hA : c.mallocAlg (bs3.fw_info.header.alg_id_list_size * 4) = some pA)
    (hB : c.mallocBlock (if bs3.fw_info.preheader.img_format_rev = 1 then 4140
                         else bs3.fw_info.header.max_block_size) = some pB) :
    bootAfterReset c fuel e =
      match bootLoop c e fuel 0 1024 0 0 (allocatedState bs3 pS pA pB) with
      | (LoopOut.earlyRet s, bsL, ltr) => (some s, hdrEvents c bs3 pS pA pB ++ ltr, bsL)
      | (LoopOut.outOfFuel, bsL, ltr) => (none, hdrEvents c bs3 pS pA pB ++ ltr, bsL)
      | (LoopOut.finished, bsL, ltr) =>
        (some (c.bootDev (some bsL.fw_info)),
         (hdrEvents c bs3 pS pA pB ++ ltr) ++
           [Event.bootDevCall (some bsL.fw_info) (c.bootDev (some bsL.fw_info))],
         bsL) := by
  rcases hL : bootLoop c e fuel 0 1024 0 0 (allocatedState bs3 pS pA pB) with ⟨lo, bsL, ltr⟩
  simp only [allocatedState] at hL
  cases lo <;>
    simp [bootAfterReset, hH, hS, hA, hB, allocatedState, hdrEvents, hL]

lemma run_bootDev_ok (c : Collab) (fuel e : Nat) (bs0 : BootState)
    (h : c.bootDev none = CS40L25_STATUS_OK) :
    bsp_dut_boot_run c fuel e bs0 =
      ((bootAfterReset c fuel e).1,
       Event.bootDevCall none CS40L25_STATUS_OK ::
         (freeEvents bs0 ++ Event.reset :: (bootAfterReset c fuel e).2.1),
       (bootAfterReset c fuel e).2.2) := by
  simp [bsp_dut_boot_run, h]

lemma run_bootDev_ne (c : Collab) (fuel e : Nat) (bs0 : BootState)
    (h : c.bootDev none ≠ CS40L25_STATUS_OK) :
    bsp_dut_boot_run c fuel e bs0 =
      (some (c.bootDev none), [Event.bootDevCall none (c.bootDev none)], bs0) := by
  simp [bsp_dut_boot_run, h]

lemma loop_trace_events (c : Collab) (e fuel fw ws pIdx wIdx : Nat) (bs bsL : BootState)
    (lo : LoopOut) (ltr : List Event) (ev : Event)
    (hL : bootLoop c e fuel fw ws pIdx wIdx bs = (lo, bsL, ltr)) (hm : ev ∈ ltr) :
    isLoopEvent ev = true :=
  loop_events c e fuel fw ws pIdx wIdx bs ev (by rw [hL]; exact hm)

lemma ar_no_free (c : Collab) (fuel e : Nat) (p : Nat) :
    Event.free p ∉ (bootAfterReset c fuel e).2.1 := by
  rcases hH : c.readHeader initBootState with ⟨r, bs3⟩
  by_cases hr : r = 0
  · subst hr
    rcases hS : c.mallocSym (bs3.fw_info.header.sym_table_size * c.sizeof_sym_entry)
      with _ | pS
    · rw [ar_sym_fail c fuel e bs3 hH hS]; simp
    · rcases hA : c.mallocAlg (bs3.fw_info.header.alg_id_list_size * 4) with _ | pA
      · rw [ar_alg_fail c fuel e pS bs3 hH hS hA]; simp
      · rcases hB : c.mallocBlock (if bs3.fw_info.preheader.img_format_rev = 1 then 4140
            else bs3.fw_info.header.max_block_size) with _ | pB
        · rw [ar_blk_fail c fuel e pS pA bs3 hH hS hA hB]; simp
        · rw [ar_loop_reduce c fuel e pS pA pB bs3 hH hS hA hB]
          rcases hL : bootLoop c e fuel 0 1024 0 0 (allocatedState bs3 pS pA pB)
            with ⟨lo, bsL, ltr⟩
          have hfr : Event.free p ∉ ltr := by
            intro hm
            have := loop_trace_events c e fuel 0 1024 0 0 _ bsL lo ltr _ hL hm
            simp [isLoopEvent] at this
          cases lo <;> simp [hdrEvents, hfr]
  · rw [ar_hdr_fail c fuel e r bs3 hH hr]; simp

lemma hdrEvents_no_failure (c : Collab) (bs3 : BootState) (pS pA pB : Nat) (ev : Event)
    (hm : ev ∈ hdrEvents c bs3 pS pA pB) : isFailureEvent ev = false := by
  simp [hdrEvents] at hm
  rcases hm with h | h | h | h <;> subst h <;> simp [isFailureEvent]

lemma ar_failure_split (c : Collab) (fuel e : Nat) (l : List Event) (ev : Event)
    (rest : List Event)
    (h : (bootAfterReset c fuel e).2.1 = l ++ ev :: rest)
    (hf : isFailureEvent ev = true) :
    rest = [] ∧ (bootAfterReset c fuel e).1 = some BSP_STATUS_FAIL ∧
      ∀ fw s, Event.bootDevCall (some fw) s ∉ (bootAfterReset c fuel e).2.1 := by
  rcases hH : c.readHeader initBootState with ⟨r, bs3⟩
  by_cases hr : r = 0
  · subst hr
    rcases hS : c.mallocSym (bs3.fw_info.header.sym_table_size * c.sizeof_sym_entry)
      with _ | pS
    · rw [ar_sym_fail c fuel e bs3 hH hS] at h ⊢
      rcases l with _ | ⟨x, _ | ⟨y, l⟩⟩ <;> simp at h
      · rw [← h.1] at hf
        simp [isFailureEvent] at hf
      · exact ⟨h.2.2, rfl, by simp⟩
    · rcases hA : c.mallocAlg (bs3.fw_info.header.alg_id_list_size * 4) with _ | pA
      · rw [ar_alg_fail c fuel e pS bs3 hH hS hA] at h ⊢
        rcases l with _ | ⟨x, _ | ⟨y, _ | ⟨z, l⟩⟩⟩ <;> simp at h
        · rw [← h.1] at hf
          simp [isFailureEvent] at hf
        · rw [← h.2.1] at hf
          simp [isFailureEvent] at hf
        · exact ⟨h.2.2.2, rfl, by simp⟩
      · rcases hB : c.mallocBlock (if bs3.fw_info.preheader.img_format_rev = 1 then 4140
            else bs3.fw_info.header.max_block_size) with _ | pB
        · rw [ar_blk_fail c fuel e pS pA bs3 hH hS hA hB] at h ⊢
          rcases l with _ | ⟨x, _ | ⟨y, _ | ⟨z, _ | ⟨u, l⟩⟩⟩⟩ <;> simp at h
          · rw [← h.1] at hf
            simp [isFailureEvent] at hf
          · rw [← h.2.1] at hf
            simp [isFailureEvent] at hf
          · rw [← h.2.2.1] at hf
            simp [isFailureEvent] at hf
          · exact ⟨h.2.2.2.2, rfl, by simp⟩
        · rcases hL : bootLoop c e fuel 0 1024 0 0 (allocatedState bs3 pS pA pB)
            with ⟨lo, bsL, ltr⟩
          have hAR := ar_loop_reduce c fuel e pS pA pB bs3 hH hS hA hB
          rw [hL] at hAR
          have hnh : ev ∉ hdrEvents c bs3 pS pA pB := by
            intro hm
            rw [hdrEvents_no_failure c bs3 pS pA pB ev hm] at hf
            exact Bool.false_ne_true hf
          have hloopfail : ∀ l2, ltr = l2 ++ ev :: rest →
              rest = [] ∧ lo = LoopOut.earlyRet BSP_STATUS_FAIL := by
            intro l2 h2
            have := loop_failure_split c e fuel 0 1024 0 0 (allocatedState bs3 pS pA pB)
              l2 ev rest (by rw [hL]; exact h2) hf
            rw [hL] at this
            exact ⟨this.1, this.2⟩
          have hnoc : ∀ fw s, Event.bootDevCall (some fw) s ∉ ltr := by
            intro fw s hm
            have := loop_trace_events c e fuel 0 1024 0 0 _ bsL lo ltr _ hL hm
            simp [isLoopEvent] at this
          cases lo with
          | earlyRet s0 =>
            dsimp only at hAR
            rw [hAR] at h ⊢
            dsimp only at h ⊢
            obtain ⟨l2, _, h2⟩ := split_skip ev (hdrEvents c bs3 pS pA pB) ltr l rest h hnh
            obtain ⟨hrest, hlo⟩ := hloopfail l2 h2
            have hs0 : s0 = BSP_STATUS_FAIL := by
              injection hlo
            refine ⟨hrest, by rw [hs0], ?_⟩
            intro fw s hm
            simp only [List.mem_append] at hm
            rcases hm with hm | hm
            · simp [hdrEvents] at hm
            · exact hnoc fw s hm
          | outOfFuel =>
            dsimp only at hAR
            rw [hAR] at h
            dsimp only at h
            obtain ⟨l2, _, h2⟩ := split_skip ev (hdrEvents c bs3 pS pA pB) ltr l rest h hnh
            obtain ⟨_, hlo⟩ := hloopfail l2 h2
            cases hlo
          | finished =>
            dsimp only at hAR
            rw [hAR] at h
            dsimp only at h
            have hmem : ev ∈ (hdrEvents c bs3 pS pA pB ++ ltr) ++
                [Event.bootDevCall (some bsL.fw_info) (c.bootDev (some bsL.fw_info))] := by
              rw [h]
              simp
            simp only [List.mem_append] at hmem
            rcases hmem with (hmem | hmem) | hmem
            · exact absurd hmem hnh
            · obtain ⟨s1, t1, h2⟩ := List.append_of_mem hmem
              have hfs := loop_failure_split c e fuel 0 1024 0 0 (allocatedState bs3 pS pA pB)
                s1 ev t1 (by rw [hL]; exact h2) hf
              rw [hL] at hfs
              cases hfs.2
            · simp only [List.mem_singleton] at hmem
              rw [hmem] at hf
              simp [isFailureEvent] at hf
  · rw [ar_hdr_fail c fuel e r bs3 hH hr] at h ⊢
    rcases l with _ | ⟨x, l⟩ <;> simp at h
    exact ⟨h.2, rfl, by simp⟩

lemma ar_head_ok (c : Collab) (fuel e : Nat) (bs3 : BootState)
    (hH : c.readHeader initBootState = (0, bs3)) :
    ∃ t, (bootAfterReset c fuel e).2.1 = Event.readHeaderCall 0 :: t := by
  rcases hS : c.mallocSym (bs3.fw_info.header.sym_table_size * c.sizeof_sym_entry)
    with _ | pS
  · rw [ar_sym_fail c fuel e bs3 hH hS]
    exact ⟨_, rfl⟩
  · rcases hA : c.mallocAlg (bs3.fw_info.header.alg_id_list_size * 4) with _ | pA
    · rw [ar_alg_fail c fuel e pS bs3 hH hS hA]
      exact ⟨_, rfl⟩
    · rcases hB : c.mallocBlock (if bs3.fw_info.preheader.img_format_rev = 1 then 4140
          else bs3.fw_info.header.max_block_size) with _ | pB
      · rw [ar_blk_fail c fuel e pS pA bs3 hH hS hA hB]
        exact ⟨_, rfl⟩
      · rcases hL : bootLoop c e fuel 0 1024 0 0 (allocatedState bs3 pS pA pB)
          with ⟨lo, bsL, ltr⟩
        have hAR := ar_loop_reduce c fuel e pS pA pB bs3 hH hS hA hB
        rw [hL] at hAR
        cases lo with
        | earlyRet s0 =>
          dsimp only at hAR
          rw [hAR]
          exact ⟨(hdrEvents c bs3 pS pA pB).tail ++ ltr, by simp [hdrEvents]⟩
        | outOfFuel =>
          dsimp only at hAR
          rw [hAR]
          exact ⟨(hdrEvents c bs3 pS pA pB).tail ++ ltr, by simp [hdrEvents]⟩
        | finished =>
          dsimp only at hAR
          rw [hAR]
          exact ⟨(hdrEvents c bs3 pS pA pB).tail ++ ltr ++
            [Event.bootDevCall (some bsL.fw_info) (c.bootDev (some bsL.fw_info))],
            by simp [hdrEvents]⟩

lemma ar_alloc_after_header (c : Collab) (fuel e : Nat) :
    ∀ l2 k sz res rest,
      (bootAfterReset c fuel e).2.1 = l2 ++ Event.alloc k sz res :: rest →
      Event.readHeaderCall 0 ∈ l2 := by
  intro l2 k sz res rest h
  rcases hH : c.readHeader initBootState with ⟨r, bs3⟩
  by_cases hr : r = 0
  · subst hr
    obtain ⟨t, ht⟩ := ar_head_ok c fuel e bs3 hH
    rw [ht] at h
    rcases l2 with _ | ⟨x, l2⟩
    · simp at h
    · simp at h
      rw [← h.1]
      exact List.mem_cons_self _ _
  · rw [ar_hdr_fail c fuel e r bs3 hH hr] at h
    rcases l2 with _ | ⟨x, l2⟩ <;> simp at h

lemma ar_write_after_allocs (c : Collab) (fuel e : Nat) :
    ∀ l2 a d sz st rest,
      (bootAfterReset c fuel e).2.1 = l2 ++ Event.writeCall a d sz st :: rest →
      Event.readHeaderCall 0 ∈ l2 ∧
        (∃ s2 p, Event.alloc .symTable s2 (some p) ∈ l2) ∧
        (∃ s2 p, Event.alloc .algIdList s2 (some p) ∈ l2) ∧
        (∃ s2 p, Event.alloc .blockBuf s2 (some p) ∈ l2) := by
  intro l2 a d sz st rest h
  rcases hH : c.readHeader initBootState with ⟨r, bs3⟩
  by_cases hr : r = 0
  · subst hr
    rcases hS : c.mallocSym (bs3.fw_info.header.sym_table_size * c.sizeof_sym_entry)
      with _ | pS
    · rw [ar_sym_fail c fuel e bs3 hH hS] at h
      dsimp only at h
      have hm : Event.writeCall a d sz st ∈
          [Event.readHeaderCall 0,
           Event.alloc .symTable (bs3.fw_info.header.sym_table_size * c.sizeof_sym_entry)
             none] := by
        rw [h]
        simp
      simp at hm
    · rcases hA : c.mallocAlg (bs3.fw_info.header.alg_id_list_size * 4) with _ | pA
      · rw [ar_alg_fail c fuel e pS bs3 hH hS hA] at h
        dsimp only at h
        have hm : Event.writeCall a d sz st ∈
            [Event.readHeaderCall 0,
             Event.alloc .symTable (bs3.fw_info.header.sym_table_size * c.sizeof_sym_entry)
               (some pS),
             Event.alloc .algIdList (bs3.fw_info.header.alg_id_list_size * 4) none] := by
          rw [h]
          simp
        simp at hm
      · rcases hB : c.mallocBlock (if bs3.fw_info.preheader.img_format_rev = 1 then 4140
            else bs3.fw_info.header.max_block_size) with _ | pB
        · rw [ar_blk_fail c fuel e pS pA bs3 hH hS hA hB] at h
          dsimp only at h
          have hm : Event.writeCall a d sz st ∈
              [Event.readHeaderCall 0,
               Event.alloc .symTable (bs3.fw_info.header.sym_table_size * c.sizeof_sym_entry)
                 (some pS),
               Event.alloc .algIdList (bs3.fw_info.header.alg_id_list_size * 4) (some pA),
               Event.alloc .blockBuf (if bs3.fw_info.preheader.img_format_rev = 1 then 4140
                 else bs3.fw_info.header.max_block_size) none] := by
            rw [h]
            simp
          simp at hm
        · rcases hL : bootLoop c e fuel 0 1024 0 0 (allocatedState bs3 pS pA pB)
            with ⟨lo, bsL, ltr⟩
          have hAR := ar_loop_reduce c fuel e pS pA pB bs3 hH hS hA hB
          rw [hL] at hAR
          have hnw : Event.writeCall a d sz st ∉ hdrEvents c bs3 pS pA pB := by
            simp [hdrEvents]
          have hdone : ∀ l3, l2 = hdrEvents c bs3 pS pA pB ++ l3 →
              Event.readHeaderCall 0 ∈ l2 ∧
                (∃ s2 p, Event.alloc .symTable s2 (some p) ∈ l2) ∧
                (∃ s2 p, Event.alloc .algIdList s2 (some p) ∈ l2) ∧
                (∃ s2 p, Event.alloc .blockBuf s2 (some p) ∈ l2) := by
            intro l3 hl3
            subst hl3
            refine ⟨by simp [hdrEvents],
              ⟨bs3.fw_info.header.sym_table_size * c.sizeof_sym_entry, pS, ?_⟩,
              ⟨bs3.fw_info.header.alg_id_list_size * 4, pA, ?_⟩,
              ⟨(if bs3.fw_info.preheader.img_format_rev = 1 then 4140
                else bs3.fw_info.header.max_block_size), pB, ?_⟩⟩ <;>
              simp [hdrEvents]
          cases lo with
          | earlyRet s0 =>
            dsimp only at hAR
            rw [hAR] at h
            dsimp only at h
            obtain ⟨l3, hl3, _⟩ := split_skip _ _ _ _ _ h hnw
            exact hdone l3 hl3
          | outOfFuel =>
            dsimp only at hAR
            rw [hAR] at h
            dsimp only at h
            obtain ⟨l3, hl3, _⟩ := split_skip _ _ _ _ _ h hnw
            exact hdone l3 hl3
          | finished =>
            dsimp only at hAR
            rw [hAR] at h
            dsimp only at h
            rw [List.append_assoc] at h
            obtain ⟨l3, hl3, _⟩ := split_skip _ _ _ _ _ h hnw
            exact hdone l3 hl3
  · rw [ar_hdr_fail c fuel e r bs3 hH hr] at h
    dsimp only at h
    have hm : Event.writeCall a d sz st ∈ [Event.readHeaderCall r] := by
      rw [h]
      simp
    simp at hm

lemma run_split_to_ar (c : Collab) (fuel e : Nat) (bs0 : BootState)
    (hb : c.bootDev none = CS40L25_STATUS_OK) (l : List Event) (ev : Event)
    (rest : List Event)
    (h : (bsp_dut_boot_run c fuel e bs0).2.1 = l ++ ev :: rest)
    (hnp : ev ∉ Event.bootDevCall none CS40L25_STATUS_OK ::
      (freeEvents bs0 ++ [Event.reset])) :
    ∃ l2, l = (Event.bootDevCall none CS40L25_STATUS_OK ::
        (freeEvents bs0 ++ [Event.reset])) ++ l2 ∧
      (bootAfterReset c fuel e).2.1 = l2 ++ ev :: rest := by
  rw [run_bootDev_ok c fuel e bs0 hb] at h
  dsimp only at h
  have hshape : (Event.bootDevCall none CS40L25_STATUS_OK ::
      (freeEvents bs0 ++ [Event.reset])) ++ (bootAfterReset c fuel e).2.1 =
      l ++ ev :: rest := by
    simpa [List.append_assoc] using h
  exact split_skip ev _ _ l rest hshape hnp

lemma ar_alloc_sizes (c : Collab) (fuel e : Nat) :
    ∀ k sz res, Event.alloc k sz res ∈ (bootAfterReset c fuel e).2.1 →
      sz = expectedAllocSize c (c.readHeader initBootState).2 k := by
  intro k sz res hm
  rcases hH : c.readHeader initBootState with ⟨r, bs3⟩
  dsimp only
  by_cases hr : r = 0
  · subst hr
    rcases hS : c.mallocSym (bs3.fw_info.header.sym_table_size * c.sizeof_sym_entry)
      with _ | pS
    · rw [ar_sym_fail c fuel e bs3 hH hS] at hm
      dsimp only at hm
      simp at hm
      rcases hm with ⟨hk, hsz, _⟩
      subst hk
      simpa [expectedAllocSize] using hsz
    · rcases hA : c.mallocAlg (bs3.fw_info.header.alg_id_list_size * 4) with _ | pA
      · rw [ar_alg_fail c fuel e pS bs3 hH hS hA] at hm
        dsimp only at hm
        simp at hm
        rcases hm with ⟨hk, hsz, _⟩ | ⟨hk, hsz, _⟩ <;> subst hk <;>
          simpa [expectedAllocSize] using hsz
      · rcases hB : c.mallocBlock (if bs3.fw_info.preheader.img_format_rev = 1 then 4140
            else bs3.fw_info.header.max_block_size) with _ | pB
        · rw [ar_blk_fail c fuel e pS pA bs3 hH hS hA hB] at hm
          dsimp only at hm
          simp at hm
          rcases hm with ⟨hk, hsz, _⟩ | ⟨hk, hsz, _⟩ | ⟨hk, hsz, _⟩ <;> subst hk <;>
            simpa [expectedAllocSize] using hsz
        · rcases hL : bootLoop c e fuel 0 1024 0 0 (allocatedState bs3 pS pA pB)
            with ⟨lo, bsL, ltr⟩
          have hAR := ar_loop_reduce c fuel e pS pA pB bs3 hH hS hA hB
          rw [hL] at hAR
          have hltr : Event.alloc k sz res ∉ ltr := by
            intro hm2
            have := loop_trace_events c e fuel 0 1024 0 0 _ bsL lo ltr _ hL hm2
            simp [isLoopEvent] at this
          have hhdr : Event.alloc k sz res ∈ hdrEvents c bs3 pS pA pB →
              sz = expectedAllocSize c bs3 k := by
            intro hm2
            simp [hdrEvents] at hm2
            rcases hm2 with ⟨hk, hsz, _⟩ | ⟨hk, hsz, _⟩ | ⟨hk, hsz, _⟩ <;> subst hk <;>
              simpa [expectedAllocSize] using hsz
          cases lo with
          | earlyRet s0 =>
            dsimp only at hAR
            rw [hAR] at hm
            dsimp only at hm
            rcases List.mem_append.mp hm with hm2 | hm2
            · exact hhdr hm2
            · exact absurd hm2 hltr
          | outOfFuel =>
            dsimp only at hAR
            rw [hAR] at hm
            dsimp only at hm
            rcases List.mem_append.mp hm with hm2 | hm2
            · exact hhdr hm2
            · exact absurd hm2 hltr
          | finished =>
            dsimp only at hAR
            rw [hAR] at hm
            dsimp only at hm
            rw [List.append_assoc] at hm
            rcases List.mem_append.mp hm with hm2 | hm2
            · exact hhdr hm2
            · rcases List.mem_append.mp hm2 with hm3 | hm3
              · exact absurd hm3 hltr
              · simp at hm3
  · rw [ar_hdr_fail c fuel e r bs3 hH hr] at hm
    dsimp only at hm
    simp at hm

/-- Claim C9: `bsp_dut_boot` calls `cs40l25_boot(NULL)` first, before any
free or modification of the boot state, and when that call returns a
non-OK status it returns that very status at once, with the boot state
(and so all retained allocations) unchanged. -/
theorem bsp_dut_boot_initial_null_boot (c : Collab) (fuel e : Nat) (bs0 : BootState) :
    (bsp_dut_boot_run c fuel e bs0).2.1.head? =
        some (Event.bootDevCall none (c.bootDev none)) ∧
    (c.bootDev none ≠ CS40L25_STATUS_OK →
      bsp_dut_boot_run c fuel e bs0 =
        (some (c.bootDev none), [Event.bootDevCall none (c.bootDev none)], bs0)) := by
  constructor
  · by_cases h : c.bootDev none = CS40L25_STATUS_OK
    · simp [run_bootDev_ok c fuel e bs0 h, h]
    · simp [run_bootDev_ne c fuel e bs0 h]
  · intro h
    exact run_bootDev_ne c fuel e bs0 h

/-- Witness for C9 at a device driver that rejects the initial NULL boot
with status 2: that status is returned and the boot state is untouched. -/
theorem bsp_dut_boot_initial_null_boot_witness :
    bsp_dut_boot_run cReject 1 64 { block_data := some 9 } =
      (some 2, [Event.bootDevCall none 2], { block_data := some 9 }) :=
  (bsp_dut_boot_initial_null_boot cReject 1 64 { block_data := some 9 }).2 (by decide)

/-- Claim C8: the symbol table, algorithm-ID list and block buffer are
never freed on any return path of `bsp_dut_boot`; the only frees happen at
the start of the (next) invocation, right after the initial NULL
`cs40l25_boot` call, freeing exactly the non-NULL pointers retained in the
previous boot state, and the state is cleared (`reset`) before any new
allocation: everything after the `reset` event is free of `free` events. -/
theorem bsp_dut_boot_frees_only_at_start (c : Collab) (fuel e : Nat) (bs0 : BootState)
    (h : c.bootDev none = CS40L25_STATUS_OK) :
    ∃ rest,
      (bsp_dut_boot_run c fuel e bs0).2.1 =
        Event.bootDevCall none CS40L25_STATUS_OK ::
          (freeEvents bs0 ++ Event.reset :: rest) ∧
      (∀ p, Event.free p ∉ rest) ∧
      (∀ p, Event.free p ∈ freeEvents bs0 ↔
        bs0.fw_info.sym_table = some p ∨ bs0.fw_info.alg_id_list = some p ∨
          bs0.block_data = some p) := by
  refine ⟨(bootAfterReset c fuel e).2.1, ?_, ?_, ?_⟩
  · rw [run_bootDev_ok c fuel e bs0 h]
  · intro p
    exact ar_no_free c fuel e p
  · intro p
    unfold freeEvents
    rcases h1 : bs0.fw_info.sym_table with _ | p1 <;>
      rcases h2 : bs0.fw_info.alg_id_list with _ | p2 <;>
      rcases h3 : bs0.block_data with _ | p3 <;>
      simp <;> omega

/-- Witness for C8: a run starting from a boot state with a retained
symbol table (7) and block buffer (9) frees exactly those two pointers, at
the start, and never frees afterwards. -/
theorem bsp_dut_boot_frees_only_at_start_witness :
    ∃ rest,
      (bsp_dut_boot_run cRun 3 1024 bs0W).2.1 =
        Event.bootDevCall none CS40L25_STATUS_OK ::
          (freeEvents bs0W ++ Event.reset :: rest) ∧
      (∀ p, Event.free p ∉ rest) ∧
      (∀ p, Event.free p ∈ freeEvents bs0W ↔
        bs0W.fw_info.sym_table = some p ∨ bs0W.fw_info.alg_id_list = some p ∨
          bs0W.block_data = some p) :=
  bsp_dut_boot_frees_only_at_start cRun 3 1024 bs0W (by decide)

/-- Claim C4: every error of `bsp_dut_boot` is terminal for the boot
attempt.  Whenever the trace contains a failure event — a failed header
read, a failed allocation, a `cs40l25_write_block` returning
CS40L25_STATUS_FAIL, or `fw_img_process` returning FW_IMG_STATUS_FAIL —
that event is the last thing the run does (no retry), the returned status
is BSP_STATUS_FAIL, and `cs40l25_boot` is never invoked with a firmware
descriptor in that run. -/
theorem bsp_dut_boot_errors_terminal (c : Collab) (fuel e : Nat) (bs0 : BootState)
    (l : List Event) (ev : Event) (rest : List Event)
    (h : (bsp_dut_boot_run c fuel e bs0).2.1 = l ++ ev :: rest)
    (hf : isFailureEvent ev = true) :
    rest = [] ∧ (bsp_dut_boot_run c fuel e bs0).1 = some BSP_STATUS_FAIL ∧
      ∀ fw s, Event.bootDevCall (some fw) s ∉ (bsp_dut_boot_run c fuel e bs0).2.1 := by
  by_cases hb : c.bootDev none = CS40L25_STATUS_OK
  · rw [run_bootDev_ok c fuel e bs0 hb] at h ⊢
    dsimp only at h ⊢
    have hshape : (Event.bootDevCall none CS40L25_STATUS_OK ::
        (freeEvents bs0 ++ [Event.reset])) ++ (bootAfterReset c fuel e).2.1 =
        l ++ ev :: rest := by
      simpa [List.append_assoc] using h
    have hnp : ev ∉ Event.bootDevCall none CS40L25_STATUS_OK ::
        (freeEvents bs0 ++ [Event.reset]) := by
      intro hm
      simp only [List.mem_cons, List.mem_append, List.mem_singleton,
        List.not_mem_nil, or_false] at hm
      rcases hm with hm | hm | hm
      · rw [hm] at hf
        simp [isFailureEvent] at hf
      · obtain ⟨p, hp⟩ := freeEvents_shape bs0 ev hm
        rw [hp] at hf
        simp [isFailureEvent] at hf
      · rw [hm] at hf
        simp [isFailureEvent] at hf
    obtain ⟨l2, hl2, htr⟩ := split_skip ev _ _ l rest hshape hnp
    obtain ⟨hrest, hres, hnc⟩ := ar_failure_split c fuel e l2 ev rest htr hf
    refine ⟨hrest, hres, ?_⟩
    intro fw s hm
    simp only [List.mem_cons, List.mem_append] at hm
    rcases hm with hm | hm | hm | hm
    · simp at hm
    · obtain ⟨p, hp⟩ := freeEvents_shape bs0 _ hm
      cases hp
    · simp at hm
    · exact hnc fw s hm
  · rw [run_bootDev_ne c fuel e bs0 hb] at h ⊢
    dsimp only at h ⊢
    rcases l with _ | ⟨x, l⟩ <;> simp at h
    rw [← h.1] at hf
    simp [isFailureEvent] at hf

/-- Witness for C4: with a collaborator whose header read fails (status 1),
the run returns BSP_STATUS_FAIL and the device-commit is never called. -/
theorem bsp_dut_boot_errors_terminal_witness :
    (bsp_dut_boot_run cFailHdr 1 99 {}).1 = some BSP_STATUS_FAIL ∧
      Event.bootDevCall (some {}) 0 ∉ (bsp_dut_boot_run cFailHdr 1 99 {}).2.1 := by
  have h := bsp_dut_boot_errors_terminal cFailHdr 1 99 {}
    [Event.bootDevCall none 0, Event.reset] (Event.readHeaderCall 1) []
    (by decide) (by decide)
  exact ⟨h.2.1, h.2.2 {} 0⟩

/-- Claim C2: in every run of `bsp_dut_boot`, the header is decoded
successfully before any allocation happens (a `readHeaderCall 0` event
precedes every allocation event), and no decoded block is forwarded to
`cs40l25_write_block` before the symbol table, the algorithm-ID list and
the block buffer have all three been allocated successfully. -/
theorem bsp_dut_boot_header_before_allocs_before_writes (c : Collab) (fuel e : Nat)
    (bs0 : BootState) :
    (∀ l k sz res rest,
      (bsp_dut_boot_run c fuel e bs0).2.1 = l ++ Event.alloc k sz res :: rest →
      Event.readHeaderCall 0 ∈ l) ∧
    (∀ l a d sz st rest,
      (bsp_dut_boot_run c fuel e bs0).2.1 = l ++ Event.writeCall a d sz st :: rest →
      Event.readHeaderCall 0 ∈ l ∧
        (∃ s2 p, Event.alloc .symTable s2 (some p) ∈ l) ∧
        (∃ s2 p, Event.alloc .algIdList s2 (some p) ∈ l) ∧
        (∃ s2 p, Event.alloc .blockBuf s2 (some p) ∈ l)) := by
  constructor
  · intro l k sz res rest h
    by_cases hb : c.bootDev none = CS40L25_STATUS_OK
    · have hnp : Event.alloc k sz res ∉ Event.bootDevCall none CS40L25_STATUS_OK ::
          (freeEvents bs0 ++ [Event.reset]) := by
        intro hm
        simp only [List.mem_cons, List.mem_append, List.mem_singleton,
          List.not_mem_nil, or_false] at hm
        rcases hm with hm | hm | hm
        · exact Event.noConfusion hm
        · obtain ⟨p, hp⟩ := freeEvents_shape bs0 _ hm
          exact Event.noConfusion hp
        · exact Event.noConfusion hm
      obtain ⟨l2, hl2, htr⟩ := run_split_to_ar c fuel e bs0 hb l _ rest h hnp
      have hmem := ar_alloc_after_header c fuel e l2 k sz res rest htr
      rw [hl2]
      exact List.mem_append_right _ hmem
    · rw [run_bootDev_ne c fuel e bs0 hb] at h
      dsimp only at h
      rcases l with _ | ⟨x, l⟩ <;> simp at h
  · intro l a d sz st rest h
    by_cases hb : c.bootDev none = CS40L25_STATUS_OK
    · have hnp : Event.writeCall a d sz st ∉ Event.bootDevCall none CS40L25_STATUS_OK ::
          (freeEvents bs0 ++ [Event.reset]) := by
        intro hm
        simp only [List.mem_cons, List.mem_append, List.mem_singleton,
          List.not_mem_nil, or_false] at hm
        rcases hm with hm | hm | hm
        · exact Event.noConfusion hm
        · obtain ⟨p, hp⟩ := freeEvents_shape bs0 _ hm
          exact Event.noConfusion hp
        · exact Event.noConfusion hm
      obtain ⟨l2, hl2, htr⟩ := run_split_to_ar c fuel e bs0 hb l _ rest h hnp
      obtain ⟨h1, ⟨s2, p2, h2⟩, ⟨s3, p3, h3⟩, ⟨s4, p4, h4⟩⟩ :=
        ar_write_after_allocs c fuel e l2 a d sz st rest htr
      rw [hl2]
      exact ⟨List.mem_append_right _ h1, ⟨s2, p2, List.mem_append_right _ h2⟩,
        ⟨s3, p3, List.mem_append_right _ h3⟩, ⟨s4, p4, List.mem_append_right _ h4⟩⟩
    · rw [run_bootDev_ne c fuel e bs0 hb] at h
      dsimp only at h
      rcases l with _ | ⟨x, l⟩ <;> simp at h

/-- Witness for C2: in a complete successful run, the prefix of the trace
before the single block write contains the successful header read and the
three successful allocations. -/
theorem bsp_dut_boot_header_before_allocs_before_writes_witness :
    Event.readHeaderCall 0 ∈ cRunTrace7 ∧
      (∃ s2 p, Event.alloc .symTable s2 (some p) ∈ cRunTrace7) ∧
      (∃ s2 p, Event.alloc .algIdList s2 (some p) ∈ cRunTrace7) ∧
      (∃ s2 p, Event.alloc .blockBuf s2 (some p) ∈ cRunTrace7) :=
  (bsp_dut_boot_header_before_allocs_before_writes cRun 3 1024 {}).2
    cRunTrace7 4096 (some 33) 8 0
    [Event.procCall 0 0 1024 FwImgStatus.done, Event.bootDevCall (some cRunFwInfo) 0]
    (by decide)

/-- Claim C3: every allocation request of `bsp_dut_boot` is sized from the
decoded header: the symbol table with `sym_table_size` entries, the
algorithm-ID list with `alg_id_list_size` entries (4 bytes each), and the
block buffer with the fixed legacy 4140 bytes when the decoded preheader
has format revision 1 and with the header's `max_block_size` for every
other revision. -/
theorem bsp_dut_boot_alloc_sizes (c : Collab) (fuel e : Nat) (bs0 : BootState) :
    (∀ sz res,
      Event.alloc .symTable sz res ∈ (bsp_dut_boot_run c fuel e bs0).2.1 →
      sz = (c.readHeader initBootState).2.fw_info.header.sym_table_size *
        c.sizeof_sym_entry) ∧
    (∀ sz res,
      Event.alloc .algIdList sz res ∈ (bsp_dut_boot_run c fuel e bs0).2.1 →
      sz = (c.readHeader initBootState).2.fw_info.header.alg_id_list_size * 4) ∧
    (∀ sz res,
      Event.alloc .blockBuf sz res ∈ (bsp_dut_boot_run c fuel e bs0).2.1 →
      sz = (if (c.readHeader initBootState).2.fw_info.preheader.img_format_rev = 1
            then 4140
            else (c.readHeader initBootState).2.fw_info.header.max_block_size)) := by
  have key : ∀ k sz res, Event.alloc k sz res ∈ (bsp_dut_boot_run c fuel e bs0).2.1 →
      sz = expectedAllocSize c (c.readHeader initBootState).2 k := by
    intro k sz res hm
    by_cases hb : c.bootDev none = CS40L25_STATUS_OK
    · rw [run_bootDev_ok c fuel e bs0 hb] at hm
      dsimp only at hm
      simp only [List.mem_cons, List.mem_append] at hm
      rcases hm with hm | hm | hm | hm
      · exact Event.noConfusion hm
      · obtain ⟨p, hp⟩ := freeEvents_shape bs0 _ hm
        exact Event.noConfusion hp
      · exact Event.noConfusion hm
      · exact ar_alloc_sizes c fuel e k sz res hm
    · rw [run_bootDev_ne c fuel e bs0 hb] at hm
      dsimp only at hm
      simp at hm
  refine ⟨fun sz res hm => ?_, fun sz res hm => ?_, fun sz res hm => ?_⟩ <;>
    simpa [expectedAllocSize] using key _ sz res hm

/-- Witness for C3: in the concrete successful run the symbol-table
allocation was 16 bytes, which is indeed sym_table_size (2) times the
8-byte entry size. -/
theorem bsp_dut_boot_alloc_sizes_witness :
    16 = (cRun.readHeader initBootState).2.fw_info.header.sym_table_size *
      cRun.sizeof_sym_entry :=
  (bsp_dut_boot_alloc_sizes cRun 3 1024 {}).1 16 (some 11) (by decide)

/-- Claim C5: when `fw_img_process` reports FW_IMG_STATUS_DATA_READY, the
loop forwards exactly the decoded block address, the block buffer pointer
and the declared block size to `cs40l25_write_block`, and when that write
does not fail it calls the parser again with the cursor `fw_img`, the
chunk pointer `fw_img_blocks` and the chunk size `fw_img_blocks_size` all
unchanged: the continuation is the same loop at the same cursor and chunk
with the parser-produced state `bs2` untouched. -/
theorem bsp_dut_boot_data_ready_write_and_same_chunk (c : Collab)
    (e fuel fw ws pIdx wIdx : Nat) (bs bs2 : BootState)
    (hlt : fw < e)
    (hp : c.process pIdx bs = (FwImgStatus.dataReady, bs2))
    (hw : c.writeBlock wIdx bs2.block.block_addr bs2.block_data bs2.block.block_size ≠
      CS40L25_STATUS_FAIL) :
    bootLoop c e (fuel+1) fw ws pIdx wIdx bs =
      (let r := bootLoop c e fuel fw ws (pIdx+1) (wIdx+1) bs2
       (r.1, r.2.1,
        Event.procCall fw bs.fw_img_blocks bs.fw_img_blocks_size FwImgStatus.dataReady ::
        Event.writeCall bs2.block.block_addr bs2.block_data bs2.block.block_size
          (c.writeBlock wIdx bs2.block.block_addr bs2.block_data bs2.block.block_size) ::
        r.2.2)) := by
  simp [bootLoop, hlt, hp, hw]

/-- Witness for C5 on a concrete parser step: the decoded block at address
4096 of size 8 is forwarded to the write, and the loop continues at the
same cursor 0 and the same 1024-byte chunk. -/
theorem bsp_dut_boot_data_ready_write_and_same_chunk_witness :
    bootLoop cRun 1024 1 0 1024 0 0 initBootState =
      (LoopOut.outOfFuel,
       { initBootState with block := { block_addr := 4096, block_size := 8 } },
       [Event.procCall 0 0 1024 FwImgStatus.dataReady,
        Event.writeCall 4096 none 8 0]) := by
  have h := bsp_dut_boot_data_ready_write_and_same_chunk cRun 1024 0 0 1024 0 0
    initBootState { initBootState with block := { block_addr := 4096, block_size := 8 } }
    (by decide) (by decide) (by decide)
  rw [h]
  decide

/-- Claim C6: when the parser reports FW_IMG_STATUS_NODATA with the
standard 1024-byte chunk size in effect, `bsp_dut_boot` advances the
cursor by 1024 and points the parser input (`fw_img_blocks`) at the new
cursor; the next chunk size is exactly `fw_img_end - fw_img` when the
remaining bytes are fewer than 1024, and stays 1024 otherwise.  The
hypothesis `fw + 1024 ≤ e` states that the chunk just processed lies
within the image, which is what makes the C pointer difference
`fw_img_end - fw_img` coincide with truncated subtraction on `Nat`. -/
theorem bsp_dut_boot_nodata_chunk_advance (c : Collab)
    (e fuel fw pIdx wIdx : Nat) (bs bs2 : BootState)
    (hlt : fw < e) (_hin : fw + 1024 ≤ e)
    (hp : c.process pIdx bs = (FwImgStatus.nodata, bs2)) :
    bootLoop c e (fuel+1) fw 1024 pIdx wIdx bs =
      (let ws2 := if e - (fw + 1024) < 1024 then e - (fw + 1024) else 1024
       let bs3 := { bs2 with fw_img_blocks := fw + 1024, fw_img_blocks_size := ws2 }
       let r := bootLoop c e fuel (fw + 1024) ws2 (pIdx+1) wIdx bs3
       (r.1, r.2.1,
        Event.procCall fw bs.fw_img_blocks bs.fw_img_blocks_size FwImgStatus.nodata ::
          r.2.2)) := by
  simp [bootLoop, hlt, hp]

/-- Witness for C6 at a 1536-byte image with the cursor at 0: after the
advance 512 bytes remain, fewer than 1024, so the next chunk is exactly
512 bytes at offset 1024. -/
theorem bsp_dut_boot_nodata_chunk_advance_witness :
    bootLoop cTrunc 1536 1 0 1024 0 0 initBootState =
      (LoopOut.outOfFuel,
       { initBootState with fw_img_blocks := 1024, fw_img_blocks_size := 512 },
       [Event.procCall 0 0 1024 FwImgStatus.nodata]) := by
  have h := bsp_dut_boot_nodata_chunk_advance cTrunc 1536 0 0 0 0
    initBootState initBootState (by decide) (by decide) (by decide)
  rw [h]
  decide

/-- Counterexample to C1 as stated: with a 2048-byte truncated image whose
parser still needs more input after both chunks (`cTrunc` always returns
FW_IMG_STATUS_NODATA), `bsp_dut_boot` does NOT return a failure: it exits
the loop, calls `cs40l25_boot` with the (incomplete) firmware descriptor,
and returns that commit's OK status. -/
theorem bsp_dut_boot_truncated_image_commits_anyway :
    (bsp_dut_boot_run cTrunc 5 2048 {}).1 = some BSP_STATUS_OK ∧
      Event.bootDevCall (some cTruncFwInfo) CS40L25_STATUS_OK ∈
        (bsp_dut_boot_run cTrunc 5 2048 {}).2.1 := by
  decide

/-- Amended claim C1: when the parser reports FW_IMG_STATUS_NODATA and
after advancing past the current chunk no image bytes remain
(`fw + ws = e`), the streaming loop of `bsp_dut_boot` does NOT fail: it
exits as normal completion (the truncation is not detected), after which
`bsp_dut_boot` proceeds to the `cs40l25_boot` commit.  The exit state has
the parser input pointed at the end of the image with a zero-size chunk. -/
theorem bsp_dut_boot_loop_exits_after_nodata_at_end (c : Collab)
    (e fuel fw ws pIdx wIdx : Nat) (bs bs2 : BootState)
    (hlt : fw < e) (hend : fw + ws = e)
    (hp : c.process pIdx bs = (FwImgStatus.nodata, bs2)) :
    bootLoop c e (fuel+2) fw ws pIdx wIdx bs =
      (LoopOut.finished,
       { bs2 with fw_img_blocks := e, fw_img_blocks_size := 0 },
       [Event.procCall fw bs.fw_img_blocks bs.fw_img_blocks_size FwImgStatus.nodata]) := by
  have hws : 0 < ws := by omega
  have h0 : e - (fw + ws) = 0 := by omega
  simp [bootLoop, hlt, hp, hend, h0, hws, Nat.lt_irrefl]

/-- Witness for the amended C1: with the 2048-byte image exhausted after
the second 1024-byte chunk and the parser still asking for more input, the
loop exits as finished. -/
theorem bsp_dut_boot_loop_exits_after_nodata_at_end_witness :
    bootLoop cTrunc 2048 2 1024 1024 1 0 initBootState =
      (LoopOut.finished,
       { initBootState with fw_img_blocks := 2048, fw_img_blocks_size := 0 },
       [Event.procCall 1024 0 1024 FwImgStatus.nodata]) := by
  have h := bsp_dut_boot_loop_exits_after_nodata_at_end cTrunc 2048 0 1024 1024 1 0
    initBootState initBootState (by decide) (by decide) (by decide)
  rw [h]
  decide

/-- Claim C7: when the run returns a status (enough fuel), the initial
NULL boot succeeded, and no failure event occurred, the completed firmware
descriptor is forwarded to `cs40l25_boot` exactly once — as the final
event of the run, with no earlier commit-with-descriptor — and the status
of that commit call is exactly the status `bsp_dut_boot` returns; the
forwarded descriptor is the `fw_info` of the final boot state. -/
theorem bsp_dut_boot_commit_once_and_status (c : Collab) (fuel e : Nat)
    (bs0 : BootState) (s : Nat)
    (hres : (bsp_dut_boot_run c fuel e bs0).1 = some s)
    (hb : c.bootDev none = CS40L25_STATUS_OK)
    (hnofail : ∀ ev ∈ (bsp_dut_boot_run c fuel e bs0).2.1, isFailureEvent ev = false) :
    ∃ fw l,
      (bsp_dut_boot_run c fuel e bs0).2.1 = l ++ [Event.bootDevCall (some fw) s] ∧
      c.bootDev (some fw) = s ∧
      fw = (bsp_dut_boot_run c fuel e bs0).2.2.fw_info ∧
      ∀ fw2 s2, Event.bootDevCall (some fw2) s2 ∉ l := by
  rw [run_bootDev_ok c fuel e bs0 hb] at hres hnofail ⊢
  dsimp only at hres hnofail ⊢
  rcases hH : c.readHeader initBootState with ⟨r, bs3⟩
  by_cases hr : r = 0
  · subst hr
    rcases hS : c.mallocSym (bs3.fw_info.header.sym_table_size * c.sizeof_sym_entry)
      with _ | pS
    · rw [ar_sym_fail c fuel e bs3 hH hS] at hnofail
      have := hnofail (Event.alloc .symTable
        (bs3.fw_info.header.sym_table_size * c.sizeof_sym_entry) none) (by simp)
      simp [isFailureEvent] at this
    · rcases hA : c.mallocAlg (bs3.fw_info.header.alg_id_list_size * 4) with _ | pA
      · rw [ar_alg_fail c fuel e pS bs3 hH hS hA] at hnofail
        have := hnofail (Event.alloc .algIdList
          (bs3.fw_info.header.alg_id_list_size * 4) none) (by simp)
        simp [isFailureEvent] at this
      · rcases hB : c.mallocBlock (if bs3.fw_info.preheader.img_format_rev = 1 then 4140
            else bs3.fw_info.header.max_block_size) with _ | pB
        · rw [ar_blk_fail c fuel e pS pA bs3 hH hS hA hB] at hnofail
          have := hnofail (Event.alloc .blockBuf
            (if bs3.fw_info.preheader.img_format_rev = 1 then 4140
             else bs3.fw_info.header.max_block_size) none) (by simp)
          simp [isFailureEvent] at this
        · rcases hL : bootLoop c e fuel 0 1024 0 0 (allocatedState bs3 pS pA pB)
            with ⟨lo, bsL, ltr⟩
          have hAR := ar_loop_reduce c fuel e pS pA pB bs3 hH hS hA hB
          rw [hL] at hAR
          cases lo with
          | earlyRet s0 =>
            obtain ⟨ev, hmem, hf⟩ := loop_earlyRet_has_failure c e fuel 0 1024 0 0
              (allocatedState bs3 pS pA pB) s0 (by rw [hL])
            rw [hL] at hmem
            dsimp only at hmem hAR
            rw [hAR] at hnofail
            have := hnofail ev (by simp [hmem])
            rw [this] at hf
            exact absurd hf (by simp)
          | outOfFuel =>
            dsimp only at hAR
            rw [hAR] at hres
            dsimp only at hres
            exact Option.noConfusion hres
          | finished =>
            dsimp only at hAR
            rw [hAR] at hres ⊢
            dsimp only at hres ⊢
            have hs : c.bootDev (some bsL.fw_info) = s := Option.some.inj hres
            subst hs
            refine ⟨bsL.fw_info,
              Event.bootDevCall none CS40L25_STATUS_OK ::
                (freeEvents bs0 ++ Event.reset ::
                  (hdrEvents c bs3 pS pA pB ++ ltr)), ?_, rfl, rfl, ?_⟩
            · simp [List.append_assoc]
            · intro fw2 s2 hm
              simp only [List.mem_cons, List.mem_append] at hm
              rcases hm with hm | hm | hm | hm | hm
              · simp at hm
              · obtain ⟨p, hp⟩ := freeEvents_shape bs0 _ hm
                exact Event.noConfusion hp
              · exact Event.noConfusion hm
              · simp [hdrEvents] at hm
              · have := loop_trace_events c e fuel 0 1024 0 0 _ bsL _ ltr _ hL hm
                simp [isLoopEvent] at this
  · rw [ar_hdr_fail c fuel e r bs3 hH hr] at hnofail
    have := hnofail (Event.readHeaderCall r) (by simp)
    simp [isFailureEvent, hr] at this

/-- Witness for C7: the complete successful run commits exactly once, as
its last event, and returns the commit status. -/
theorem bsp_dut_boot_commit_once_and_status_witness :
    ∃ fw l,
      (bsp_dut_boot_run cRun 3 1024 {}).2.1 =
        l ++ [Event.bootDevCall (some fw) CS40L25_STATUS_OK] ∧
      cRun.bootDev (some fw) = CS40L25_STATUS_OK ∧
      fw = (bsp_dut_boot_run cRun 3 1024 {}).2.2.fw_info ∧
      ∀ fw2 s2, Event.bootDevCall (some fw2) s2 ∉ l :=
  bsp_dut_boot_commit_once_and_status cRun 3 1024 {} CS40L25_STATUS_OK
    (by decide) (by decide) (by decide)

/-- Claim C10 fails on the code (off-by-one): the guard compares with `>`
against the element count 2, so `config_index = 2` passes the guard even
though the array has only the indices 0 and 1, and the C code then reads
one element past the end of `cs40l25_haptic_configs` instead of returning
BSP_STATUS_FAIL. -/
theorem bsp_dut_update_haptic_config_oob_at_two :
    (¬ 2 > cs40l25_haptic_configs.length) ∧
      cs40l25_haptic_configs.length = 2 ∧
      bsp_dut_update_haptic_config (fun _ => CS40L25_STATUS_OK) 2 = none := by
  decide
